import Mathlib

/-!
# Verification of the BLDC firmware core

Shallow embedding of the firmware's motor-control pipeline, translated from
the Rust sources:

* `src/math.rs`               — angle normalization (`norm_rads`)
* `src/magnet_controller.rs`  — three-phase PWM duty synthesis
* `src/position_sensor.rs`    — 14-bit encoder conversion and phase projection
* `src/modes/calibration.rs`  — the `Settler` statistical settle detector
* `src/drv_8305.rs`           — gate-driver SPI interface with the two-frame
                                read cache
* `src/bldc.rs`, `src/runner.rs` — supervisor state machine and outer loop

Modelling conventions: `f32` arithmetic is idealized as real arithmetic
(`ℝ`); the source constant `PI = 3.14159` (the `f32` approximation of π) is
modelled as the real `π`.  Rust's `%` / `libm::fmodf` on floats is modelled
by `rustFmod`, which truncates the quotient toward zero exactly as `fmodf`
does.  Hardware peripherals (PWM compare registers, the EN_GATE line, SPI
frames) are modelled as explicit state: writing a duty cycle records the
commanded value, and each SPI transaction increments a frame counter and
consumes one value from a reply oracle.  Peripheral writes that the source
propagates as `Result` are modelled as always succeeding; the only error
path kept is the one decided by the embedded code itself (the `0xFFFF`
"driver offline" reply).
-/

/-- Truncation toward zero on `ℝ`, the rounding used by Rust `fmodf`. -/
noncomputable def rustTrunc (t : ℝ) : ℤ := if 0 ≤ t then ⌊t⌋ else ⌈t⌉

/-- `libm::fmodf x y = x - y * trunc (x / y)`, `f32` idealized as `ℝ`. -/
noncomputable def rustFmod (x y : ℝ) : ℝ := x - y * rustTrunc (x / y)

/-- Source constant `PI` from `src/math.rs` (the `f32` literal `3.14159`,
modelled as the real π). -/
noncomputable def PI : ℝ := Real.pi

/-- Source constant `PI2 = PI * 2`. -/
noncomputable def PI2 : ℝ := PI * 2

/-- Source constant `PI1_2 = PI / 2`. -/
noncomputable def PI1_2 : ℝ := PI / 2

/-- Source constant `PI1_4 = PI / 4`. -/
noncomputable def PI1_4 : ℝ := PI / 4

/-- `norm_rads` from `src/math.rs`:
`fmodf (PI2 + fmodf rads PI2) PI2`. -/
noncomputable def norm_rads (rads : ℝ) : ℝ := rustFmod (PI2 + rustFmod rads PI2) PI2

theorem PI2_pos : 0 < PI2 := by
  unfold PI2 PI
  positivity

theorem rustFmod_of_nonneg (x y : ℝ) (hx : 0 ≤ x) (hy : 0 < y) :
    rustFmod x y = y * Int.fract (x / y) := by
  unfold rustFmod rustTrunc
  rw [if_pos (div_nonneg hx hy.le), Int.fract]
  rw [mul_sub, mul_div_cancel₀ x hy.ne']

theorem rustFmod_gt_neg (x y : ℝ) (hy : 0 < y) : -y < rustFmod x y := by
  rcases le_or_lt 0 x with hx | hx
  · rw [rustFmod_of_nonneg x y hx hy]
    have h1 : 0 ≤ y * Int.fract (x / y) := mul_nonneg hy.le (Int.fract_nonneg _)
    linarith
  · unfold rustFmod rustTrunc
    have hq : x / y < 0 := div_neg_of_neg_of_pos hx hy
    rw [if_neg (not_le.mpr hq)]
    have hceil : (⌈x / y⌉ : ℝ) < x / y + 1 := Int.ceil_lt_add_one (x / y)
    have hxy : y * (x / y) = x := mul_div_cancel₀ x hy.ne'
    nlinarith

/-- The normalization computes `2π · fract (x / 2π)`, the canonical
representative of `x` modulo `2π` in `[0, 2π)`. -/
theorem norm_rads_eq_fract (x : ℝ) : norm_rads x = PI2 * Int.fract (x / PI2) := by
  have hp : 0 < PI2 := PI2_pos
  have hinner : rustFmod x PI2 = x - PI2 * rustTrunc (x / PI2) := rfl
  have hlow : -PI2 < rustFmod x PI2 := rustFmod_gt_neg x PI2 hp
  have ht0 : 0 ≤ PI2 + rustFmod x PI2 := by linarith
  have houter : norm_rads x = PI2 * Int.fract ((PI2 + rustFmod x PI2) / PI2) :=
    rustFmod_of_nonneg _ _ ht0 hp
  have hdiv : (PI2 + rustFmod x PI2) / PI2
      = x / PI2 + ((1 - rustTrunc (x / PI2) : ℤ) : ℝ) := by
    rw [hinner]
    push_cast
    field_simp
    ring
  rw [houter, hdiv, Int.fract_add_int]

theorem norm_rads_nonneg (x : ℝ) : 0 ≤ norm_rads x := by
  rw [norm_rads_eq_fract]
  exact mul_nonneg PI2_pos.le (Int.fract_nonneg _)

theorem norm_rads_lt_PI2 (x : ℝ) : norm_rads x < PI2 := by
  rw [norm_rads_eq_fract]
  calc PI2 * Int.fract (x / PI2) < PI2 * 1 :=
        (mul_lt_mul_left PI2_pos).mpr (Int.fract_lt_one _)
    _ = PI2 := mul_one _

theorem norm_rads_zero : norm_rads 0 = 0 := by
  rw [norm_rads_eq_fract, zero_div, Int.fract_zero, mul_zero]

theorem norm_rads_PI2 : norm_rads PI2 = 0 := by
  rw [norm_rads_eq_fract, div_self PI2_pos.ne', Int.fract_one, mul_zero]

theorem norm_rads_add_PI2 (x : ℝ) : norm_rads (x + PI2) = norm_rads x := by
  rw [norm_rads_eq_fract, norm_rads_eq_fract]
  have h : (x + PI2) / PI2 = x / PI2 + ((1 : ℤ) : ℝ) := by
    rw [add_div, div_self PI2_pos.ne']
    norm_num
  rw [h, Int.fract_add_int]

theorem norm_rads_sub_int_mul (x : ℝ) (n : ℤ) :
    norm_rads (x - PI2 * n) = norm_rads x := by
  rw [norm_rads_eq_fract, norm_rads_eq_fract]
  have h : (x - PI2 * n) / PI2 = x / PI2 - (n : ℝ) := by
    rw [sub_div, mul_div_cancel_left₀ _ PI2_pos.ne']
  rw [h, Int.fract_sub_int]

theorem norm_rads_eq_self (x : ℝ) (h0 : 0 ≤ x) (h1 : x < PI2) : norm_rads x = x := by
  rw [norm_rads_eq_fract]
  have hfr : Int.fract (x / PI2) = x / PI2 :=
    Int.fract_eq_self.mpr ⟨div_nonneg h0 PI2_pos.le, (div_lt_one PI2_pos).mpr h1⟩
  rw [hfr, mul_div_cancel₀ x PI2_pos.ne']

/-- Normalizing first does not change the normalization of a shifted angle:
`norm_rads (norm_rads x - c) = norm_rads (x - c)`. -/
theorem norm_rads_norm_sub (x c : ℝ) :
    norm_rads (norm_rads x - c) = norm_rads (x - c) := by
  have hx : norm_rads x = x - PI2 * (⌊x / PI2⌋ : ℤ) := by
    rw [norm_rads_eq_fract, Int.fract, mul_sub, mul_div_cancel₀ x PI2_pos.ne']
  have h : norm_rads x - c = (x - c) - PI2 * (⌊x / PI2⌋ : ℤ) := by
    rw [hx]; ring
  rw [h, norm_rads_sub_int_mul]

/-- Source constant `PI2_3 = PI2 / 3` from `src/magnet_controller.rs`. -/
noncomputable def PI2_3 : ℝ := PI2 / 3

/-- Source constant `PI4_3 = PI2_3 * 2` from `src/magnet_controller.rs`. -/
noncomputable def PI4_3 : ℝ := PI2_3 * 2

/-- State of `MagnetController` (`src/magnet_controller.rs`): the three PWM
compare registers hold the most recently commanded duty cycles (`duty_u`,
`duty_v`, `duty_w`, written through `set_duty_cycle`), plus the stored
`phase_angle` and `power_scale` fields.  The timer/pin resources carry no
data and are omitted. -/
structure MagnetController where
  duty_u : ℝ
  duty_v : ℝ
  duty_w : ℝ
  phase_angle : ℝ
  power_scale : ℝ

/-- `MagnetController::phase_angle_to_duty_cycle`:
`cosf phase_angle / 2 + 0.5`. -/
noncomputable def phase_angle_to_duty_cycle (phase_angle : ℝ) : ℝ :=
  Real.cos phase_angle / 2 + 0.5

/-- `MagnetController::set_phase_angle_and_power` (lines 132-153): normalize
the angle, clamp the power scale into `[0, 1]`, command the three duty
cycles, store the accepted pair. -/
noncomputable def MagnetController.set_phase_angle_and_power
    (m : MagnetController) (phase_angle power_scale : ℝ) : MagnetController :=
  let pa := norm_rads phase_angle
  let ps := if power_scale < 0 then 0 else if power_scale > 1 then 1 else power_scale
  let u := phase_angle_to_duty_cycle pa
  let v := phase_angle_to_duty_cycle (norm_rads (pa - PI2_3))
  let w := phase_angle_to_duty_cycle (norm_rads (pa - PI4_3))
  { duty_u := u * ps
    duty_v := v * ps
    duty_w := w * ps
    phase_angle := pa
    power_scale := ps }

/-- `MagnetController::set_phase_angle`. -/
noncomputable def MagnetController.set_phase_angle
    (m : MagnetController) (phase_angle : ℝ) : MagnetController :=
  m.set_phase_angle_and_power (norm_rads phase_angle) m.power_scale

/-- `MagnetController::set_power_scale`. -/
noncomputable def MagnetController.set_power_scale
    (m : MagnetController) (power_scale : ℝ) : MagnetController :=
  m.set_phase_angle_and_power m.phase_angle power_scale

/-- A freshly constructed `MagnetController` (`MagnetController::new`
initializes every duty to 0 and stores `phase_angle = 0`,
`power_scale = 0`). -/
def MagnetController.start_state : MagnetController :=
  { duty_u := 0, duty_v := 0, duty_w := 0, phase_angle := 0, power_scale := 0 }

theorem duty_cycle_mem (θ : ℝ) :
    0 ≤ phase_angle_to_duty_cycle θ ∧ phase_angle_to_duty_cycle θ ≤ 1 := by
  unfold phase_angle_to_duty_cycle
  have h1 := Real.neg_one_le_cos θ
  have h2 := Real.cos_le_one θ
  constructor <;> nlinarith

theorem clamp_eq_self (s : ℝ) (hs0 : 0 ≤ s) (hs1 : s ≤ 1) :
    (if s < 0 then (0 : ℝ) else if s > 1 then 1 else s) = s := by
  rw [if_neg (not_lt.mpr hs0), if_neg (not_lt.mpr hs1)]

theorem cos_PI2_3 : Real.cos PI2_3 = -(1 / 2) := by
  have h : PI2_3 = Real.pi - Real.pi / 3 := by
    unfold PI2_3 PI2 PI
    ring
  rw [h, Real.cos_pi_sub, Real.cos_pi_div_three]

theorem cos_PI4_3 : Real.cos PI4_3 = -(1 / 2) := by
  have h : PI4_3 = Real.pi + Real.pi / 3 := by
    unfold PI4_3 PI2_3 PI2 PI
    ring
  rw [h, Real.cos_add, Real.cos_pi, Real.sin_pi, Real.cos_pi_div_three]
  ring

theorem norm_rads_neg_PI2_3 : norm_rads (0 - PI2_3) = PI4_3 := by
  have h : (0 : ℝ) - PI2_3 = PI4_3 - PI2 * ((1 : ℤ) : ℝ) := by
    unfold PI4_3 PI2_3
    push_cast
    ring
  rw [h, norm_rads_sub_int_mul]
  refine norm_rads_eq_self _ ?_ ?_
  · unfold PI4_3 PI2_3
    nlinarith [PI2_pos]
  · unfold PI4_3 PI2_3
    nlinarith [PI2_pos]

theorem norm_rads_neg_PI4_3 : norm_rads (0 - PI4_3) = PI2_3 := by
  have h : (0 : ℝ) - PI4_3 = PI2_3 - PI2 * ((1 : ℤ) : ℝ) := by
    unfold PI4_3 PI2_3
    push_cast
    ring
  rw [h, norm_rads_sub_int_mul]
  refine norm_rads_eq_self _ ?_ ?_
  · unfold PI2_3
    nlinarith [PI2_pos]
  · unfold PI2_3
    nlinarith [PI2_pos]

/-- C1. Duty-cycle law: for every phase angle φ and power scale s ∈ [0, 1],
`set_phase_angle_and_power(φ, s)` commands the three PWM duty cycles
`(cos (norm (φ - k·2π/3)) / 2 + 0.5) · s` for k ∈ {0, 1, 2}, each lying in
`[0, s]`; in particular `set_phase_angle_and_power(0, 1)` commands duties
`(1.0, 0.25, 0.25)`. -/
theorem C1_duty_cycle_law (m : MagnetController) (φ s : ℝ)
    (hs0 : 0 ≤ s) (hs1 : s ≤ 1) :
    ((m.set_phase_angle_and_power φ s).duty_u
        = (Real.cos (norm_rads (φ - 0 * PI2_3)) / 2 + 0.5) * s
      ∧ (m.set_phase_angle_and_power φ s).duty_v
        = (Real.cos (norm_rads (φ - 1 * PI2_3)) / 2 + 0.5) * s
      ∧ (m.set_phase_angle_and_power φ s).duty_w
        = (Real.cos (norm_rads (φ - 2 * PI2_3)) / 2 + 0.5) * s)
    ∧ (0 ≤ (m.set_phase_angle_and_power φ s).duty_u
      ∧ (m.set_phase_angle_and_power φ s).duty_u ≤ s
      ∧ 0 ≤ (m.set_phase_angle_and_power φ s).duty_v
      ∧ (m.set_phase_angle_and_power φ s).duty_v ≤ s
      ∧ 0 ≤ (m.set_phase_angle_and_power φ s).duty_w
      ∧ (m.set_phase_angle_and_power φ s).duty_w ≤ s)
    ∧ ((m.set_phase_angle_and_power 0 1).duty_u = 1
      ∧ (m.set_phase_angle_and_power 0 1).duty_v = 0.25
      ∧ (m.set_phase_angle_and_power 0 1).duty_w = 0.25) := by
  have hps : (if s < 0 then (0 : ℝ) else if s > 1 then 1 else s) = s :=
    clamp_eq_self s hs0 hs1
  have hu : (m.set_phase_angle_and_power φ s).duty_u
      = phase_angle_to_duty_cycle (norm_rads φ) * s := by
    unfold MagnetController.set_phase_angle_and_power
    rw [hps]
  have hv : (m.set_phase_angle_and_power φ s).duty_v
      = phase_angle_to_duty_cycle (norm_rads (φ - PI2_3)) * s := by
    simp only [MagnetController.set_phase_angle_and_power]
    rw [hps, norm_rads_norm_sub]
  have hw : (m.set_phase_angle_and_power φ s).duty_w
      = phase_angle_to_duty_cycle (norm_rads (φ - PI4_3)) * s := by
    simp only [MagnetController.set_phase_angle_and_power]
    rw [hps, norm_rads_norm_sub]
  have hbound : ∀ θ : ℝ,
      0 ≤ phase_angle_to_duty_cycle θ * s ∧ phase_angle_to_duty_cycle θ * s ≤ s := by
    intro θ
    obtain ⟨h0, h1⟩ := duty_cycle_mem θ
    refine ⟨mul_nonneg h0 hs0, ?_⟩
    calc phase_angle_to_duty_cycle θ * s ≤ 1 * s := by
          exact mul_le_mul_of_nonneg_right h1 hs0
      _ = s := one_mul s
  have hone : (if (1 : ℝ) < 0 then (0 : ℝ) else if (1 : ℝ) > 1 then 1 else 1) = 1 := by
    norm_num
  have hu1 : (m.set_phase_angle_and_power 0 1).duty_u
      = phase_angle_to_duty_cycle (norm_rads 0) := by
    simp only [MagnetController.set_phase_angle_and_power]
    rw [hone, mul_one]
  have hv1 : (m.set_phase_angle_and_power 0 1).duty_v
      = phase_angle_to_duty_cycle (norm_rads (norm_rads 0 - PI2_3)) := by
    simp only [MagnetController.set_phase_angle_and_power]
    rw [hone, mul_one]
  have hw1 : (m.set_phase_angle_and_power 0 1).duty_w
      = phase_angle_to_duty_cycle (norm_rads (norm_rads 0 - PI4_3)) := by
    simp only [MagnetController.set_phase_angle_and_power]
    rw [hone, mul_one]
  refine ⟨⟨?_, ?_, ?_⟩, ⟨?_, ?_, ?_, ?_, ?_, ?_⟩, ?_, ?_, ?_⟩
  · rw [hu, zero_mul, sub_zero]
    rfl
  · rw [hv, one_mul]
    rfl
  · rw [hw, two_mul]
    unfold PI4_3
    rw [mul_two]
    rfl
  · rw [hu]; exact (hbound _).1
  · rw [hu]; exact (hbound _).2
  · rw [hv]; exact (hbound _).1
  · rw [hv]; exact (hbound _).2
  · rw [hw]; exact (hbound _).1
  · rw [hw]; exact (hbound _).2
  · rw [hu1, norm_rads_zero]
    unfold phase_angle_to_duty_cycle
    rw [Real.cos_zero]
    norm_num
  · rw [hv1, norm_rads_zero, norm_rads_neg_PI2_3]
    unfold phase_angle_to_duty_cycle
    rw [cos_PI4_3]
    norm_num
  · rw [hw1, norm_rads_zero, norm_rads_neg_PI4_3]
    unfold phase_angle_to_duty_cycle
    rw [cos_PI2_3]
    norm_num

/-- Witness for C1 at the concrete input `(φ, s) = (0, 1)` on a fresh
controller: the hypotheses `0 ≤ 1` and `1 ≤ 1` hold and the commanded
duties are `(1.0, 0.25, 0.25)`. -/
theorem C1_duty_cycle_law_witness :
    (0 : ℝ) ≤ 1 ∧ (1 : ℝ) ≤ 1
    ∧ ((MagnetController.start_state.set_phase_angle_and_power 0 1).duty_u = 1
      ∧ (MagnetController.start_state.set_phase_angle_and_power 0 1).duty_v = 0.25
      ∧ (MagnetController.start_state.set_phase_angle_and_power 0 1).duty_w = 0.25) :=
  ⟨by norm_num, by norm_num,
    (C1_duty_cycle_law MagnetController.start_state 0 1
      (by norm_num) (by norm_num)).2.2⟩

/-- C5. Stored-state invariant: after any `set_phase_angle_and_power(φ, s)`
call (the model's calls always correspond to the successful case),
the stored `phase_angle` lies in `[0, 2π)` and the stored `power_scale`
lies in `[0, 1]`. -/
theorem C5_stored_state_invariant (m : MagnetController) (φ s : ℝ) :
    (0 ≤ (m.set_phase_angle_and_power φ s).phase_angle
      ∧ (m.set_phase_angle_and_power φ s).phase_angle < PI2)
    ∧ (0 ≤ (m.set_phase_angle_and_power φ s).power_scale
      ∧ (m.set_phase_angle_and_power φ s).power_scale ≤ 1) := by
  have hpa : (m.set_phase_angle_and_power φ s).phase_angle = norm_rads φ := rfl
  have hps : (m.set_phase_angle_and_power φ s).power_scale
      = if s < 0 then 0 else if s > 1 then 1 else s := rfl
  refine ⟨⟨?_, ?_⟩, ?_, ?_⟩
  · rw [hpa]; exact norm_rads_nonneg φ
  · rw [hpa]; exact norm_rads_lt_PI2 φ
  · rw [hps]
    split_ifs with h1 h2
    · exact le_refl 0
    · exact zero_le_one
    · exact not_lt.mp h1
  · rw [hps]
    split_ifs with h1 h2
    · exact zero_le_one
    · exact le_refl 1
    · exact not_lt.mp h2

/-- C6. Power-scale clamping: a negative requested scale is accepted as 0, a
scale above 1 is accepted as 1; in particular
`set_phase_angle_and_power(0, 2.0)` commands the same duties and stores the
same state as `set_phase_angle_and_power(0, 1.0)`. -/
theorem C6_power_scale_clamping (m : MagnetController) (φ s : ℝ) :
    (s < 0 → (m.set_phase_angle_and_power φ s).power_scale = 0)
    ∧ (1 < s → (m.set_phase_angle_and_power φ s).power_scale = 1)
    ∧ m.set_phase_angle_and_power 0 2 = m.set_phase_angle_and_power 0 1 := by
  have hps : ∀ t : ℝ, (m.set_phase_angle_and_power φ t).power_scale
      = if t < 0 then 0 else if t > 1 then 1 else t := fun t => rfl
  refine ⟨?_, ?_, ?_⟩
  · intro h
    rw [hps s, if_pos h]
  · intro h
    rw [hps s, if_neg (not_lt.mpr (le_of_lt (lt_trans zero_lt_one h))), if_pos h]
  · simp only [MagnetController.set_phase_angle_and_power]
    norm_num

/-- Witness for C6 at concrete inputs on a fresh controller: a requested
scale of `-1` is clamped to 0 and a requested scale of `2` is clamped
to 1. -/
theorem C6_power_scale_clamping_witness :
    (-1 : ℝ) < 0 ∧ (1 : ℝ) < 2
    ∧ (MagnetController.start_state.set_phase_angle_and_power 0 (-1)).power_scale = 0
    ∧ (MagnetController.start_state.set_phase_angle_and_power 0 2).power_scale = 1 :=
  ⟨by norm_num, by norm_num,
    (C6_power_scale_clamping MagnetController.start_state 0 (-1)).1 (by norm_num),
    (C6_power_scale_clamping MagnetController.start_state 0 2).2.1 (by norm_num)⟩

/-- C7. Angle normalization: for every angle φ, `norm_rads φ ∈ [0, 2π)`,
`norm_rads (φ + 2π) = norm_rads φ`, `norm_rads 0 = 0`, and `norm_rads 2π`
is exactly 0 on the canonical boundary. -/
theorem C7_angle_norm_law (φ : ℝ) :
    (0 ≤ norm_rads φ ∧ norm_rads φ < PI2)
    ∧ norm_rads (φ + PI2) = norm_rads φ
    ∧ norm_rads 0 = 0
    ∧ norm_rads PI2 = 0 :=
  ⟨⟨norm_rads_nonneg φ, norm_rads_lt_PI2 φ⟩, norm_rads_add_PI2 φ,
    norm_rads_zero, norm_rads_PI2⟩

/-- Source constant `POS_MAX_U16 = 0b0011111111111111` from
`src/position_sensor.rs` ("Max value of 14-bit position sensor"). -/
def POS_MAX_U16 : ℕ := 0b0011111111111111

/-- Source constant `POS_MAX_F32 = POS_MAX_U16 as f32`. -/
noncomputable def POS_MAX_F32 : ℝ := (POS_MAX_U16 : ℝ)

/-- `raw_to_rads` from `src/position_sensor.rs`:
`(raw as f32 / POS_MAX_F32) * PI2`. -/
noncomputable def raw_to_rads (raw : ℕ) : ℝ := ((raw : ℝ) / POS_MAX_F32) * PI2

/-- State of `PositionSensor`: the configured pole-pair count and the stored
zero offset.  The SPI resources carry no data relevant to the claims; the
encoder's raw Angle reply is passed in explicitly as the SPI oracle value
(`raw`).  The stored `rads_per_magnet_pair` field is omitted because
`read_phase_angle` recomputes `PI2 / num_magnet_pairs` inline. -/
structure PositionSensor where
  num_magnet_pairs : ℕ
  offset : ℝ

/-- `PositionSensor::set_offset` (the diagnostic print is not modelled). -/
def PositionSensor.set_offset (ps : PositionSensor) (offset : ℝ) : PositionSensor :=
  { ps with offset := offset }

/-- `PositionSensor::read_absolute_angle` with the encoder's raw Angle reply
`raw`: mask to 14 bits, scale to radians, subtract the stored offset,
normalize. -/
noncomputable def PositionSensor.read_absolute_angle
    (ps : PositionSensor) (raw : ℕ) : ℝ :=
  norm_rads (raw_to_rads (raw &&& POS_MAX_U16) - ps.offset)

/-- `PositionSensor::read_phase_angle` (lines 101-107): project the absolute
angle into one electrical revolution,
`(abs % (PI2 / num_magnet_pairs)) * num_magnet_pairs`. -/
noncomputable def PositionSensor.read_phase_angle
    (ps : PositionSensor) (raw : ℕ) : ℝ :=
  rustFmod (ps.read_absolute_angle raw) (PI2 / (ps.num_magnet_pairs : ℝ))
    * (ps.num_magnet_pairs : ℝ)

/-- Conversion asserted by the claim's words (`raw / 2^14 * 2π`), written
for comparison against the source's `raw_to_rads`, which divides by
`2^14 - 1 = 16383`. -/
noncomputable def claim_raw_to_rads (raw : ℕ) : ℝ := ((raw : ℝ) / 2 ^ 14) * PI2

theorem rustFmod_nonneg (x y : ℝ) (hx : 0 ≤ x) (hy : 0 < y) :
    0 ≤ rustFmod x y := by
  rw [rustFmod_of_nonneg x y hx hy]
  exact mul_nonneg hy.le (Int.fract_nonneg _)

theorem rustFmod_lt (x y : ℝ) (hx : 0 ≤ x) (hy : 0 < y) : rustFmod x y < y := by
  rw [rustFmod_of_nonneg x y hx hy]
  calc y * Int.fract (x / y) < y * 1 := (mul_lt_mul_left hy).mpr (Int.fract_lt_one _)
    _ = y := mul_one y

theorem rustFmod_eq_self (x y : ℝ) (hx : 0 ≤ x) (hxy : x < y) : rustFmod x y = x := by
  have hy : 0 < y := lt_of_le_of_lt hx hxy
  rw [rustFmod_of_nonneg x y hx hy]
  rw [Int.fract_eq_self.mpr ⟨div_nonneg hx hy.le, (div_lt_one hy).mpr hxy⟩]
  exact mul_div_cancel₀ x hy.ne'

/-- Evaluation of the source pipeline at raw reading 1, offset 0, 20 pole
pairs: the encoder divides by 16383, so the phase angle is `2π/16383 · 20`. -/
theorem read_phase_angle_at_one :
    PositionSensor.read_phase_angle ⟨20, 0⟩ 1 = PI2 / 16383 * 20 := by
  have hmask : (1 &&& POS_MAX_U16 : ℕ) = 1 := by decide
  have habs : PositionSensor.read_absolute_angle ⟨20, 0⟩ 1 = PI2 / 16383 := by
    unfold PositionSensor.read_absolute_angle raw_to_rads POS_MAX_F32
    rw [hmask]
    have harg : ((1 : ℕ) : ℝ) / ((POS_MAX_U16 : ℕ) : ℝ) * PI2 - (PositionSensor.mk 20 0).offset
        = PI2 / 16383 := by
      have : ((POS_MAX_U16 : ℕ) : ℝ) = 16383 := by
        unfold POS_MAX_U16
        norm_num
      rw [this]
      push_cast
      ring
    rw [harg]
    refine norm_rads_eq_self _ ?_ ?_
    · exact (div_pos PI2_pos (by norm_num)).le
    · have h1 : PI2 / 16383 < PI2 / 1 := by
        apply div_lt_div_of_pos_left PI2_pos
        · norm_num
        · norm_num
      simpa using h1
  unfold PositionSensor.read_phase_angle
  rw [habs]
  have h20 : ((PositionSensor.mk 20 0).num_magnet_pairs : ℝ) = 20 := by norm_num
  rw [h20]
  have hlt : PI2 / 16383 < PI2 / 20 := by
    apply div_lt_div_of_pos_left PI2_pos
    · norm_num
    · norm_num
  rw [rustFmod_eq_self _ _ (div_pos PI2_pos (by norm_num)).le hlt]

/-- C3 counterexample: at raw reading 1, offset 0 and 20 pole pairs, the
code's phase angle (conversion dividing by `2^14 - 1 = 16383`) differs from
the claim's formula (conversion dividing by `2^14`). -/
theorem C3_phase_projection_counterexample :
    ¬ (PositionSensor.read_phase_angle ⟨20, 0⟩ 1
        = rustFmod (norm_rads (claim_raw_to_rads 1 - 0)) (PI2 / 20) * 20) := by
  have hclaim : rustFmod (norm_rads (claim_raw_to_rads 1 - 0)) (PI2 / 20) * 20
      = PI2 / 16384 * 20 := by
    have harg : claim_raw_to_rads 1 - 0 = PI2 / 16384 := by
      unfold claim_raw_to_rads
      push_cast
      ring
    rw [harg]
    have hself : norm_rads (PI2 / 16384) = PI2 / 16384 := by
      refine norm_rads_eq_self _ ?_ ?_
      · exact (div_pos PI2_pos (by norm_num)).le
      · have h1 : PI2 / 16384 < PI2 / 1 := by
          apply div_lt_div_of_pos_left PI2_pos
          · norm_num
          · norm_num
        simpa using h1
    rw [hself]
    have hlt : PI2 / 16384 < PI2 / 20 := by
      apply div_lt_div_of_pos_left PI2_pos
      · norm_num
      · norm_num
    rw [rustFmod_eq_self _ _ (div_pos PI2_pos (by norm_num)).le hlt]
  rw [read_phase_angle_at_one, hclaim]
  intro h
  have h2 : PI2 / 16383 = PI2 / 16384 :=
    mul_right_cancel₀ (by norm_num : (20 : ℝ) ≠ 0) h
  rw [div_eq_div_iff (by norm_num) (by norm_num)] at h2
  have h3 : (16384 : ℝ) = 16383 := mul_left_cancel₀ PI2_pos.ne' h2
  norm_num at h3

/-- C3 as amended: for every raw encoder reading and stored offset, with a
positive pole-pair count P, `read_phase_angle` lies in `[0, 2π)` and equals
`(norm (raw·2π/(2^14 - 1) - θ₀) mod 2π/P) · P` — the raw-to-radians
conversion divides by `2^14 - 1 = 16383` (the 14-bit maximum), not `2^14`. -/
theorem C3_phase_projection_amended (ps : PositionSensor) (raw : ℕ)
    (hP : 0 < ps.num_magnet_pairs) :
    (0 ≤ ps.read_phase_angle raw ∧ ps.read_phase_angle raw < PI2)
    ∧ ps.read_phase_angle raw
      = rustFmod (norm_rads (((raw &&& POS_MAX_U16 : ℕ) : ℝ) / (2 ^ 14 - 1) * PI2 - ps.offset))
          (PI2 / (ps.num_magnet_pairs : ℝ)) * (ps.num_magnet_pairs : ℝ) := by
  have hPr : (0 : ℝ) < (ps.num_magnet_pairs : ℝ) := by
    exact_mod_cast hP
  have hy : (0 : ℝ) < PI2 / (ps.num_magnet_pairs : ℝ) := div_pos PI2_pos hPr
  have habs0 : 0 ≤ ps.read_absolute_angle raw := norm_rads_nonneg _
  refine ⟨⟨?_, ?_⟩, ?_⟩
  · exact mul_nonneg (rustFmod_nonneg _ _ habs0 hy) hPr.le
  · have hlt := rustFmod_lt (ps.read_absolute_angle raw) _ habs0 hy
    calc rustFmod (ps.read_absolute_angle raw) (PI2 / (ps.num_magnet_pairs : ℝ))
          * (ps.num_magnet_pairs : ℝ)
        < PI2 / (ps.num_magnet_pairs : ℝ) * (ps.num_magnet_pairs : ℝ) := by
          exact mul_lt_mul_of_pos_right hlt hPr
      _ = PI2 := div_mul_cancel₀ PI2 hPr.ne'
  · unfold PositionSensor.read_phase_angle PositionSensor.read_absolute_angle
      raw_to_rads POS_MAX_F32
    have : ((POS_MAX_U16 : ℕ) : ℝ) = (2 : ℝ) ^ 14 - 1 := by
      unfold POS_MAX_U16
      norm_num
    rw [this]

/-- Witness for the amended C3 at raw reading 1, offset 0, 20 pole pairs. -/
theorem C3_phase_projection_amended_witness :
    0 < (PositionSensor.mk 20 0).num_magnet_pairs
    ∧ (0 ≤ PositionSensor.read_phase_angle ⟨20, 0⟩ 1
      ∧ PositionSensor.read_phase_angle ⟨20, 0⟩ 1 < PI2) :=
  ⟨by norm_num, (C3_phase_projection_amended ⟨20, 0⟩ 1 (by norm_num)).1⟩

/-- Source constant `NUM_SAMPLES = 500` from `src/modes/calibration.rs`. -/
def NUM_SAMPLES : ℕ := 500

/-- Source constant `MAX_DEVIATION = PI2 / 10000` from
`src/modes/calibration.rs`. -/
noncomputable def MAX_DEVIATION : ℝ := PI2 / 10000

/-- `SettleState` from `src/modes/calibration.rs`. -/
inductive SettleState
  | Settled (mean : ℝ)
  | NotSettled

/-- `Settler` from `src/modes/calibration.rs`: a running count and the
sample array `[f32; NUM_SAMPLES]`, modelled as a function on `ℕ` whose
indices `0 .. NUM_SAMPLES - 1` mirror the array (every source access is in
range). -/
structure Settler where
  samples_collected : ℕ
  samples : ℕ → ℝ

/-- `Settler::new`: zero count, all-zero sample buffer. -/
def Settler.new : Settler := ⟨0, fun _ => 0⟩

/-- The source shift loop
`for i in 0..NUM_SAMPLES - 1 { samples[i + 1] = samples[i]; }`
modelled one iteration at a time: `shiftIter s k` is the buffer after the
body has run for `i = 0 .. k - 1` in increasing order. -/
def shiftIter (s : ℕ → ℝ) : ℕ → (ℕ → ℝ)
  | 0 => s
  | k + 1 => Function.update (shiftIter s k) (k + 1) (shiftIter s k k)

/-- `Settler::add_sample` (lines 141-166): run the shift loop, write the new
sample at index 0, bump the count; once the count reaches `NUM_SAMPLES`,
compute the mean and report `Settled(mean)` unless some sample deviates from
the mean by more than `MAX_DEVIATION` (the source's early-return loop is
modelled by the equivalent existence test). -/
noncomputable def Settler.add_sample (st : Settler) (sample : ℝ) : Settler × SettleState :=
  let samples := Function.update (shiftIter st.samples (NUM_SAMPLES - 1)) 0 sample
  let st2 : Settler := ⟨st.samples_collected + 1, samples⟩
  if NUM_SAMPLES ≤ st.samples_collected + 1 then
    let mean := (∑ i in Finset.range NUM_SAMPLES, samples i) / (NUM_SAMPLES : ℝ)
    if ∃ i ∈ Finset.range NUM_SAMPLES, MAX_DEVIATION < |mean - samples i| then
      (st2, SettleState.NotSettled)
    else
      (st2, SettleState.Settled mean)
  else (st2, SettleState.NotSettled)

/-- Feeding a list of samples in order; the returned `SettleState` is the
one reported by the final `add_sample`. -/
noncomputable def Settler.runAll (st : Settler) (l : List ℝ) : Settler × SettleState :=
  l.foldl (fun acc x => acc.1.add_sample x) (st, SettleState.NotSettled)

/-- Closed form of the source shift loop: because the loop walks forward,
every index `1 .. k` receives a copy of `samples[0]` instead of the older
samples sliding up. -/
theorem shiftIter_apply (s : ℕ → ℝ) (k : ℕ) :
    ∀ j, shiftIter s k j = if 1 ≤ j ∧ j ≤ k then s 0 else s j := by
  induction k with
  | zero =>
    intro j
    simp only [shiftIter]
    rw [if_neg (show ¬(1 ≤ j ∧ j ≤ 0) by omega)]
  | succ k ih =>
    intro j
    simp only [shiftIter, Function.update_apply]
    by_cases hj : j = k + 1
    · subst hj
      rw [if_pos rfl, if_pos (show 1 ≤ k + 1 ∧ k + 1 ≤ k + 1 by omega), ih k]
      by_cases hk : 1 ≤ k
      · rw [if_pos (show 1 ≤ k ∧ k ≤ k from ⟨hk, le_refl k⟩)]
      · have hk0 : k = 0 := by omega
        subst hk0
        rw [if_neg (show ¬(1 ≤ 0 ∧ 0 ≤ 0) by omega)]
    · rw [if_neg hj, ih j]
      by_cases hc : 1 ≤ j ∧ j ≤ k
      · rw [if_pos hc, if_pos (show 1 ≤ j ∧ j ≤ k + 1 from ⟨hc.1, by omega⟩)]
      · rw [if_neg hc, if_neg (show ¬(1 ≤ j ∧ j ≤ k + 1) by omega)]

theorem add_sample_fst (st : Settler) (x : ℝ) :
    (st.add_sample x).1
      = ⟨st.samples_collected + 1,
          Function.update (shiftIter st.samples (NUM_SAMPLES - 1)) 0 x⟩ := by
  simp only [Settler.add_sample]
  split_ifs <;> rfl

/-- After `add_sample x`, index 0 holds `x` and every other in-range index
holds a copy of the previous `samples[0]` (the shift bug). -/
theorem add_sample_samples_apply (st : Settler) (x : ℝ) (j : ℕ)
    (hj : j < NUM_SAMPLES) :
    (st.add_sample x).1.samples j = if j = 0 then x else st.samples 0 := by
  have h500 : NUM_SAMPLES = 500 := rfl
  rw [add_sample_fst]
  show Function.update (shiftIter st.samples (NUM_SAMPLES - 1)) 0 x j
      = if j = 0 then x else st.samples 0
  rw [Function.update_apply]
  by_cases h : j = 0
  · rw [if_pos h, if_pos h]
  · rw [if_neg h, if_neg h, shiftIter_apply,
      if_pos (show 1 ≤ j ∧ j ≤ NUM_SAMPLES - 1 by omega)]

theorem add_sample_notSettled (st : Settler) (x : ℝ)
    (h : st.samples_collected + 1 < NUM_SAMPLES) :
    (st.add_sample x).2 = SettleState.NotSettled := by
  simp only [Settler.add_sample]
  rw [if_neg (not_le.mpr h)]

/-- If the previous newest sample equals the incoming sample `c` and the
count reaches `NUM_SAMPLES`, `add_sample c` reports `Settled c`: thanks to
the shift bug the whole buffer is the constant `c`, whose mean is `c`. -/
theorem add_sample_settled_const (st : Settler) (c : ℝ) (h0 : st.samples 0 = c)
    (hN : NUM_SAMPLES ≤ st.samples_collected + 1) :
    (st.add_sample c).2 = SettleState.Settled c := by
  have h500 : NUM_SAMPLES = 500 := rfl
  have hsamp : ∀ i, i < NUM_SAMPLES →
      Function.update (shiftIter st.samples (NUM_SAMPLES - 1)) 0 c i = c := by
    intro i hi
    rw [Function.update_apply]
    by_cases h : i = 0
    · rw [if_pos h]
    · rw [if_neg h, shiftIter_apply,
        if_pos (show 1 ≤ i ∧ i ≤ NUM_SAMPLES - 1 by omega), h0]
  have hmean : (∑ i in Finset.range NUM_SAMPLES,
      Function.update (shiftIter st.samples (NUM_SAMPLES - 1)) 0 c i)
        / (NUM_SAMPLES : ℝ) = c := by
    rw [Finset.sum_congr rfl (fun i hi => hsamp i (Finset.mem_range.mp hi))]
    rw [Finset.sum_const, Finset.card_range, nsmul_eq_mul]
    rw [mul_comm, mul_div_assoc,
      div_self (show ((NUM_SAMPLES : ℕ) : ℝ) ≠ 0 by rw [h500]; norm_num), mul_one]
  simp only [Settler.add_sample]
  rw [if_pos hN]
  have hnotdev : ¬ ∃ i ∈ Finset.range NUM_SAMPLES,
      MAX_DEVIATION < |(∑ i in Finset.range NUM_SAMPLES,
        Function.update (shiftIter st.samples (NUM_SAMPLES - 1)) 0 c i)
          / (NUM_SAMPLES : ℝ)
        - Function.update (shiftIter st.samples (NUM_SAMPLES - 1)) 0 c i| := by
    rintro ⟨i, hi, hdev⟩
    rw [hmean, hsamp i (Finset.mem_range.mp hi), sub_self, abs_zero] at hdev
    have hpos : 0 < MAX_DEVIATION := by
      unfold MAX_DEVIATION
      exact div_pos PI2_pos (by norm_num)
    linarith
  rw [if_neg hnotdev, hmean]

/-- Feeding at least two copies of the same value `c`: because of the
forward-walking shift, the buffer ends up constant `c`, so the final
`add_sample` reports `Settled c` exactly when the count has reached
`NUM_SAMPLES`, regardless of every sample fed before the last two. -/
theorem foldl_replicate_add_sample (c : ℝ) (n : ℕ) (hn : 2 ≤ n) :
    ∀ (st : Settler) (r : SettleState),
      ((List.replicate n c).foldl (fun acc x => acc.1.add_sample x) (st, r)).1.samples_collected
          = st.samples_collected + n
      ∧ ((List.replicate n c).foldl (fun acc x => acc.1.add_sample x) (st, r)).1.samples 0 = c
      ∧ ((List.replicate n c).foldl (fun acc x => acc.1.add_sample x) (st, r)).2
          = if NUM_SAMPLES ≤ st.samples_collected + n then SettleState.Settled c
            else SettleState.NotSettled := by
  induction n, hn using Nat.le_induction with
  | base =>
    intro st r
    have hrepl : List.replicate 2 c = [c, c] := rfl
    rw [hrepl]
    have hfold : ([c, c].foldl (fun acc x => acc.1.add_sample x) (st, r))
        = (st.add_sample c).1.add_sample c := rfl
    rw [hfold]
    have hst1c : (st.add_sample c).1.samples_collected = st.samples_collected + 1 := by
      rw [add_sample_fst]
    have hst10 : (st.add_sample c).1.samples 0 = c := by
      rw [add_sample_samples_apply st c 0 (by norm_num [NUM_SAMPLES]), if_pos rfl]
    refine ⟨?_, ?_, ?_⟩
    · rw [add_sample_fst, hst1c]
    · rw [add_sample_samples_apply _ c 0 (by norm_num [NUM_SAMPLES]), if_pos rfl]
    · by_cases hcond : NUM_SAMPLES ≤ st.samples_collected + 2
      · rw [if_pos hcond]
        exact add_sample_settled_const _ c hst10 (by omega)
      · rw [if_neg hcond]
        exact add_sample_notSettled _ c (by omega)
  | succ n hn ih =>
    intro st r
    rw [List.replicate_succ, List.foldl_cons]
    have hfst : ((st, r).1 : Settler) = st := rfl
    rw [hfst]
    obtain ⟨hcount, hzero, hres⟩ := ih (st.add_sample c).1 (st.add_sample c).2
    have hst1c : (st.add_sample c).1.samples_collected = st.samples_collected + 1 := by
      rw [add_sample_fst]
    refine ⟨?_, ?_, ?_⟩
    · rw [hcount, hst1c]
      omega
    · exact hzero
    · rw [hres, hst1c]
      by_cases hcond : NUM_SAMPLES ≤ st.samples_collected + (n + 1)
      · rw [if_pos (by omega), if_pos hcond]
      · rw [if_neg (by omega), if_neg hcond]

/-- C2. Evaluation of `Settler::add_sample` at the claim's scenario with the
deviant sample placed first: feeding a fresh Settler the sample
`1 + 2π/9000` (which deviates from 1 by more than `MAX_DEVIATION = 2π/10000`)
followed by 499 samples of `1.0`, the 500th `add_sample` reports
`Settled 1.0` — not `NotSettled` as the claim requires for a deviant placed
anywhere among the 500 samples.  The forward-walking shift loop replicates
`samples[0]` across the buffer, erasing the deviant sample before the settle
test runs. -/
theorem C2_settler_shift_bug_eval :
    (Settler.new.runAll ((1 + PI2 / 9000) :: List.replicate 499 1)).2
      = SettleState.Settled 1 := by
  unfold Settler.runAll
  rw [List.foldl_cons]
  have hfst : ((Settler.new, SettleState.NotSettled).1 : Settler) = Settler.new := rfl
  rw [hfst]
  obtain ⟨-, -, hres⟩ :=
    foldl_replicate_add_sample 1 499 (by norm_num)
      (Settler.new.add_sample (1 + PI2 / 9000)).1
      (Settler.new.add_sample (1 + PI2 / 9000)).2
  rw [hres]
  have hc : (Settler.new.add_sample (1 + PI2 / 9000)).1.samples_collected = 1 := by
    rw [add_sample_fst]
    rfl
  rw [if_pos (show NUM_SAMPLES ≤ (Settler.new.add_sample (1 + PI2 / 9000)).1.samples_collected + 499 by
    rw [hc]
    norm_num [NUM_SAMPLES])]

/-- `ReadCommand` from `src/drv_8305.rs` (register addresses
`Warnings = 0b10001 << 11`, `OvercurrentFaults = 0b10010 << 11`,
`IcFaults = 0b10011 << 11`, `GateDriverFaults = 0b0100 << 11`). -/
inductive DrvReadCommand
  | Warnings
  | OvercurrentFaults
  | IcFaults
  | GateDriverFaults
deriving DecidableEq

/-- The 16-bit frame value carried by each `ReadCommand` discriminant. -/
def DrvReadCommand.frame : DrvReadCommand → ℕ
  | .Warnings => 0b10001 <<< 11
  | .OvercurrentFaults => 0b10010 <<< 11
  | .IcFaults => 0b10011 <<< 11
  | .GateDriverFaults => 0b0100 <<< 11

/-- `WriteCommand` from `src/drv_8305.rs`: an empty enum. -/
inductive DrvWriteCommand
deriving DecidableEq

/-- `Command` from `src/drv_8305.rs`. -/
inductive DrvCommand
  | Nop
  | Read (rc : DrvReadCommand)
  | Write (wc : DrvWriteCommand)
deriving DecidableEq

/-- State of `Drv8305` (`src/drv_8305.rs`): the EN_GATE line, the
`last_command` cache, and a frame counter.  Each SPI transaction
(`send`) exchanges exactly one 16-bit frame, so `frames_sent` counts
frames; replies are drawn from an oracle indexed by the frame number. -/
structure Drv8305 where
  en_gate : Bool
  last_command : DrvCommand
  frames_sent : ℕ
deriving DecidableEq

/-- `Drv8305::enable_gate`. -/
def Drv8305.enable_gate (d : Drv8305) : Drv8305 := { d with en_gate := true }

/-- `Drv8305::disable_gate`. -/
def Drv8305.disable_gate (d : Drv8305) : Drv8305 := { d with en_gate := false }

/-- `Drv8305::send` (lines 119-130): one 16-bit SPI frame — write the
command word, record it as `last_command`, return the 16-bit reply (drawn
from the oracle at the current frame index). -/
def Drv8305.send (d : Drv8305) (command : DrvCommand) (replies : ℕ → ℕ) :
    Drv8305 × ℕ :=
  ({ d with last_command := command, frames_sent := d.frames_sent + 1 },
    replies d.frames_sent)

/-- `Drv8305::read` (lines 105-117): if the cached `last_command` is not the
same read, send the command once to prime the response pipeline, then send
it again to capture the response. -/
def Drv8305.read (d : Drv8305) (read_command : DrvReadCommand) (replies : ℕ → ℕ) :
    Drv8305 × ℕ :=
  let command_previously_sent :=
    match d.last_command with
    | .Nop => false
    | .Read rc => decide (rc = read_command)
    | .Write _ => false
  let d1 := if command_previously_sent then d
    else (d.send (.Read read_command) replies).1
  d1.send (.Read read_command) replies

/-- `Warnings` from `src/drv_8305.rs`: the decoded 16-bit warning bitmap. -/
structure Warnings where
  data : ℕ

/-- `Warnings::decode`: an all-ones (`0xFFFF`) reply denotes an offline
driver and fails with a distinguished error. -/
def Warnings.decode (data : ℕ) : Except String Warnings :=
  if data = 65535 then Except.error "Drv8305 offline" else Except.ok ⟨data⟩

/-- `Warnings::ok`: the bitmap is exactly zero. -/
def Warnings.ok (w : Warnings) : Bool := w.data = 0

/-- `Warnings::has`: test one flag bit. -/
def Warnings.has (w : Warnings) (flag : ℕ) : Bool := 0 < w.data &&& flag

/-- C9. Two-frame SPI read cache: a read always leaves `last_command`
holding that read; when the cache already holds the same read, each read
costs one SPI frame, so two consecutive reads of the same register take two
frames total; when the cache holds `Nop` or a different command, the read
issues one priming frame plus one data frame (two frames). -/
theorem C9_read_cache (d : Drv8305) (rc : DrvReadCommand) (replies : ℕ → ℕ) :
    ((d.read rc replies).1.last_command = DrvCommand.Read rc)
    ∧ (d.last_command = DrvCommand.Read rc →
        (d.read rc replies).1.frames_sent = d.frames_sent + 1
        ∧ (((d.read rc replies).1.read rc replies).1.frames_sent = d.frames_sent + 2))
    ∧ (d.last_command ≠ DrvCommand.Read rc →
        (d.read rc replies).1.frames_sent = d.frames_sent + 2) := by
  have hsend_last : ∀ (t : Drv8305) (c : DrvCommand),
      (t.send c replies).1.last_command = c := fun t c => rfl
  have hsend_frames : ∀ (t : Drv8305) (c : DrvCommand),
      (t.send c replies).1.frames_sent = t.frames_sent + 1 := fun t c => rfl
  have hwarm : ∀ t : Drv8305, t.last_command = DrvCommand.Read rc →
      (t.read rc replies).1.frames_sent = t.frames_sent + 1 := by
    intro t ht
    unfold Drv8305.read
    rw [ht]
    simp only [decide_eq_true_eq]
    rw [if_pos trivial]
    exact hsend_frames t _
  refine ⟨?_, ?_, ?_⟩
  · unfold Drv8305.read
    cases d.last_command <;> simp [Drv8305.send]
  · intro h
    have h1 := hwarm d h
    refine ⟨h1, ?_⟩
    have h2 : (d.read rc replies).1.last_command = DrvCommand.Read rc := by
      unfold Drv8305.read
      cases d.last_command <;> simp [Drv8305.send]
    rw [hwarm _ h2, h1]
  · intro h
    unfold Drv8305.read
    rcases hl : d.last_command with _ | rc2 | wc
    · simp [Drv8305.send]
    · have hne : rc2 ≠ rc := by
        intro he
        rw [he] at hl
        exact h hl
      simp [Drv8305.send, hne]
    · simp [Drv8305.send]

/-- Witness for C9: with the cache warm (`last_command = Read Warnings`,
frame counter 0), a read of `Warnings` costs one frame and a second
consecutive read brings the total to two frames. -/
theorem C9_read_cache_witness :
    (Drv8305.mk false (DrvCommand.Read DrvReadCommand.Warnings) 0).last_command
        = DrvCommand.Read DrvReadCommand.Warnings
    ∧ ((Drv8305.mk false (DrvCommand.Read DrvReadCommand.Warnings) 0).read
        DrvReadCommand.Warnings (fun _ => 0)).1.frames_sent
        = (Drv8305.mk false (DrvCommand.Read DrvReadCommand.Warnings) 0).frames_sent + 1
    ∧ ((((Drv8305.mk false (DrvCommand.Read DrvReadCommand.Warnings) 0).read
        DrvReadCommand.Warnings (fun _ => 0)).1.read
        DrvReadCommand.Warnings (fun _ => 0)).1.frames_sent
        = (Drv8305.mk false (DrvCommand.Read DrvReadCommand.Warnings) 0).frames_sent + 2) :=
  ⟨rfl,
    ((C9_read_cache (Drv8305.mk false (DrvCommand.Read DrvReadCommand.Warnings) 0)
      DrvReadCommand.Warnings (fun _ => 0)).2.1 rfl).1,
    ((C9_read_cache (Drv8305.mk false (DrvCommand.Read DrvReadCommand.Warnings) 0)
      DrvReadCommand.Warnings (fun _ => 0)).2.1 rfl).2⟩

/-- Source constant `SPEED = 0.002` from `src/modes/calibration.rs`. -/
noncomputable def SPEED : ℝ := 0.002

/-- Source constant `MAX_TURN = PI2 * 2` from `src/modes/calibration.rs`. -/
noncomputable def MAX_TURN : ℝ := PI2 * 2

/-- `Phase` from `src/modes/calibration.rs`. -/
inductive CalPhase
  | Start
  | Settle
  | ForwardTurn
  | ForwardSettle
  | BackwardTurn
  | BackwardSettle
  | Done

/-- `CalibrationMode` state from `src/modes/calibration.rs`. -/
structure CalibrationMode where
  phase : CalPhase
  zero : ℝ
  forward_extent : ℝ
  backward_extent : ℝ
  settler : Settler
  cumulative_phase_angle : ℝ

/-- `CalibrationMode::new`. -/
def CalibrationMode.new : CalibrationMode :=
  ⟨CalPhase.Start, 0, 0, 0, Settler.new, 0⟩

/-- `CalibrationMode::is_done`. -/
def CalibrationMode.is_done (c : CalibrationMode) : Bool :=
  match c.phase with
  | CalPhase.Done => true
  | _ => false

/-- `CalibrationMode::step` (lines 50-117), with the encoder's raw Angle
reply for this step passed as `raw`.  Diagnostic prints and the `Drv8305`
SPI start are not modelled; `drv_8305.start()` leaves the modelled driver
state unchanged. -/
noncomputable def CalibrationMode.step (c : CalibrationMode) (drv : Drv8305)
    (mag : MagnetController) (sensor : PositionSensor) (raw : ℕ) :
    CalibrationMode × Drv8305 × MagnetController × PositionSensor :=
  match c.phase with
  | CalPhase.Start =>
      ({ c with phase := CalPhase.Settle },
        drv.enable_gate, mag.set_phase_angle_and_power 0 0.1, sensor)
  | CalPhase.Settle =>
      match c.settler.add_sample (sensor.read_absolute_angle raw) with
      | (st, SettleState.Settled zero) =>
          ({ c with settler := st, zero := zero, phase := CalPhase.ForwardTurn },
            drv, mag, sensor.set_offset zero)
      | (st, SettleState.NotSettled) =>
          ({ c with settler := st }, drv, mag, sensor)
  | CalPhase.ForwardTurn =>
      let cpa := c.cumulative_phase_angle + SPEED
      let mag1 := mag.set_phase_angle cpa
      if cpa ≥ MAX_TURN then
        ({ c with cumulative_phase_angle := cpa, settler := Settler.new, phase := CalPhase.ForwardSettle },
          drv, mag1.set_phase_angle MAX_TURN, sensor)
      else
        ({ c with cumulative_phase_angle := cpa }, drv, mag1, sensor)
  | CalPhase.ForwardSettle =>
      match c.settler.add_sample (sensor.read_absolute_angle raw) with
      | (st, SettleState.Settled forward_extent) =>
          ({ c with settler := st, forward_extent := forward_extent, phase := CalPhase.BackwardTurn },
            drv, mag, sensor)
      | (st, SettleState.NotSettled) =>
          ({ c with settler := st }, drv, mag, sensor)
  | CalPhase.BackwardTurn =>
      let cpa := c.cumulative_phase_angle - SPEED
      let mag1 := mag.set_phase_angle cpa
      if cpa ≤ 0 then
        ({ c with cumulative_phase_angle := cpa, settler := Settler.new, phase := CalPhase.BackwardSettle },
          drv, mag1, sensor)
      else
        ({ c with cumulative_phase_angle := cpa }, drv, mag1, sensor)
  | CalPhase.BackwardSettle =>
      match c.settler.add_sample (sensor.read_absolute_angle raw) with
      | (st, SettleState.Settled backward_extent) =>
          ({ c with settler := st, backward_extent := backward_extent, phase := CalPhase.Done },
            drv.disable_gate, mag.set_phase_angle_and_power 0 0, sensor)
      | (st, SettleState.NotSettled) =>
          ({ c with settler := st }, drv, mag, sensor)
  | CalPhase.Done => (c, drv, mag, sensor)

/-- `DemoMode` state from `src/modes/demo.rs`. -/
structure DemoMode where
  accel : ℝ
  power : ℝ
  angle : ℝ

/-- Source constant `MIN = 0` from `src/modes/demo.rs`. -/
noncomputable def DemoMode.dmin : ℝ := 0

/-- Source constant `MAX = 0.2` from `src/modes/demo.rs`. -/
noncomputable def DemoMode.dmax : ℝ := 0.2

/-- `DemoMode::new`: enable the gate, command `(0, 0)`, start the ramp at
`accel = 0.0001`, `power = MIN`, `angle = PI1_2`. -/
noncomputable def DemoMode.new (drv : Drv8305) (mag : MagnetController) :
    DemoMode × Drv8305 × MagnetController :=
  (⟨0.0001, DemoMode.dmin, PI1_2⟩,
    drv.enable_gate, mag.set_phase_angle_and_power 0 0)

/-- `DemoMode::step` (lines 28-49), with the encoder's raw Angle reply for
this step passed as `raw`. -/
noncomputable def DemoMode.step (d : DemoMode) (drv : Drv8305)
    (mag : MagnetController) (sensor : PositionSensor) (raw : ℕ) :
    DemoMode × Drv8305 × MagnetController × PositionSensor :=
  let phase_pos := sensor.read_phase_angle raw
  let accel := if d.power > DemoMode.dmax ∨ d.power < DemoMode.dmin
    then d.accel * (-1) else d.accel
  let angle := if d.power < DemoMode.dmin then d.angle * (-1) else d.angle
  let power := d.power + accel
  (⟨accel, power, angle⟩, drv,
    mag.set_phase_angle_and_power (phase_pos + angle) power, sensor)

/-- `Mode` from `src/bldc.rs`. -/
inductive Mode
  | Start
  | Calibrate (c : CalibrationMode)
  | Demo (d : DemoMode)

/-- State of `Bldc` (`src/bldc.rs`): the optional recovery overlay
(`RecoveryMode` carries no data), the configured pole-pair count, the mode
machine, and the three peripheral wrappers.  The `System`/GPIO handles
carry no data relevant to the claims. -/
structure BldcState where
  recovery_mode : Option Unit
  num_magnet_pairs : ℕ
  mode : Mode
  drv_8305 : Drv8305
  magnet_controller : MagnetController
  position_sensor : PositionSensor

/-- Per-step environment: the 16-bit SPI reply for the warnings read and the
raw encoder Angle reply. -/
structure StepInput where
  warnings : ℕ
  raw_angle : ℕ

/-- `Bldc::handle_drv_8305_errors` (lines 85-127): read and decode the
warnings register; a zero bitmap clears recovery, a non-zero bitmap
disables the gate and installs a fresh `RecoveryMode` (the per-flag
diagnostic prints are not modelled). -/
noncomputable def Bldc.handle_drv_8305_errors (s : BldcState) (w : ℕ) :
    Except String BldcState :=
  let r := s.drv_8305.read DrvReadCommand.Warnings (fun _ => w)
  match Warnings.decode r.2 with
  | Except.error e => Except.error e
  | Except.ok warnings =>
      if warnings.ok then
        Except.ok { s with drv_8305 := r.1, recovery_mode := none }
      else
        Except.ok { s with drv_8305 := r.1.disable_gate, recovery_mode := some () }

/-- The mode-dispatch part of `Bldc::step` (lines 138-165): on `Start`,
install `Calibrate`; on `Calibrate`, step it and install `Demo` when done;
on `Demo`, step it.  Peripheral operations inside the mode steps are
modelled as always succeeding, so dispatch is total. -/
noncomputable def Bldc.step_mode (s : BldcState) (raw : ℕ) : BldcState :=
  match s.mode with
  | Mode.Start => { s with mode := Mode.Calibrate CalibrationMode.new }
  | Mode.Calibrate c =>
      let r := c.step s.drv_8305 s.magnet_controller s.position_sensor raw
      let s2 := { s with mode := Mode.Calibrate r.1, drv_8305 := r.2.1, magnet_controller := r.2.2.1, position_sensor := r.2.2.2 }
      if r.1.is_done then
        let d := DemoMode.new r.2.1 r.2.2.1
        { s2 with mode := Mode.Demo d.1, drv_8305 := d.2.1, magnet_controller := d.2.2 }
      else s2
  | Mode.Demo dm =>
      let r := dm.step s.drv_8305 s.magnet_controller s.position_sensor raw
      { s with mode := Mode.Demo r.1, drv_8305 := r.2.1, magnet_controller := r.2.2.1, position_sensor := r.2.2.2 }

/-- `Bldc::step` (lines 130-167): handle driver warnings first; while a
recovery overlay is installed, `RecoveryMode::step` is a no-op returning
`Ok`, so the state passes through unchanged; otherwise dispatch the mode
machine. -/
noncomputable def Bldc.step (s : BldcState) (inp : StepInput) :
    Except String BldcState :=
  match Bldc.handle_drv_8305_errors s inp.warnings with
  | Except.error e => Except.error e
  | Except.ok s1 =>
      match s1.recovery_mode with
      | some _ => Except.ok s1
      | none => Except.ok (Bldc.step_mode s1 inp.raw_angle)

/-- `Bldc::safemode` (lines 169-173): brake mode — command power scale 0
and disable the gate. -/
noncomputable def Bldc.safemode (s : BldcState) : BldcState :=
  { s with magnet_controller := s.magnet_controller.set_power_scale 0, drv_8305 := s.drv_8305.disable_gate }

/-- `Bldc::should_continue` (lines 191-193): always `Ok(true)`. -/
def Bldc.should_continue (_s : BldcState) : Except String Bool :=
  Except.ok true

theorem drv_read_snd (d : Drv8305) (rc : DrvReadCommand) (w : ℕ) :
    (d.read rc (fun _ => w)).2 = w := by
  unfold Drv8305.read Drv8305.send
  cases d.last_command <;> simp

/-- Branch structure of `handle_drv_8305_errors`: decoding fails exactly on
the all-ones reply; a zero bitmap clears recovery; a non-zero bitmap
disables the gate and installs recovery. -/
theorem handle_spec (s : BldcState) (w : ℕ) :
    Bldc.handle_drv_8305_errors s w
      = if w = 65535 then Except.error "Drv8305 offline"
        else if w = 0
          then Except.ok { s with drv_8305 := (s.drv_8305.read DrvReadCommand.Warnings (fun _ => w)).1, recovery_mode := none }
          else Except.ok { s with drv_8305 := ((s.drv_8305.read DrvReadCommand.Warnings (fun _ => w)).1).disable_gate, recovery_mode := some () } := by
  simp only [Bldc.handle_drv_8305_errors, Warnings.decode]
  rw [drv_read_snd]
  by_cases h : w = 65535
  · rw [if_pos h, if_pos h]
  · rw [if_neg h, if_neg h]
    by_cases h0 : w = 0
    · rw [if_pos h0]
      have hok : Warnings.ok ⟨w⟩ = true := by
        simp [Warnings.ok, h0]
      simp only [hok, if_true]
    · rw [if_neg h0]
      have hok : Warnings.ok ⟨w⟩ = false := by
        simp [Warnings.ok, h0]
      simp [hok]

theorem step_mode_recovery (s : BldcState) (raw : ℕ) :
    (Bldc.step_mode s raw).recovery_mode = s.recovery_mode := by
  rcases s with ⟨rec, nmp, mode, drv, mag, sen⟩
  cases mode with
  | Start => rfl
  | Calibrate c =>
      unfold Bldc.step_mode
      dsimp only
      split <;> rfl
  | Demo d => rfl

/-- C4. Recovery overlay: on every supervisor step whose decoded warnings
word is non-zero, the gate is disabled and a fresh `RecoveryMode` is
installed while the mode machine is untouched; on every step whose warnings
word is zero, any recovery state is cleared and the current mode is stepped
(via `step_mode`). -/
theorem C4_recovery_overlay (s : BldcState) (inp : StepInput)
    (hdec : inp.warnings ≠ 65535) :
    (inp.warnings ≠ 0 →
      Bldc.step s inp
          = Except.ok { s with drv_8305 := ((s.drv_8305.read DrvReadCommand.Warnings (fun _ => inp.warnings)).1).disable_gate, recovery_mode := some () }
      ∧ ∀ s1, Bldc.step s inp = Except.ok s1 →
          s1.drv_8305.en_gate = false ∧ s1.recovery_mode = some ()
          ∧ s1.mode = s.mode)
    ∧ (inp.warnings = 0 →
      Bldc.step s inp
          = Except.ok (Bldc.step_mode { s with drv_8305 := (s.drv_8305.read DrvReadCommand.Warnings (fun _ => inp.warnings)).1, recovery_mode := none } inp.raw_angle)
      ∧ ∀ s1, Bldc.step s inp = Except.ok s1 → s1.recovery_mode = none) := by
  constructor
  · intro hw
    have hstep : Bldc.step s inp
        = Except.ok { s with drv_8305 := ((s.drv_8305.read DrvReadCommand.Warnings (fun _ => inp.warnings)).1).disable_gate, recovery_mode := some () } := by
      unfold Bldc.step
      rw [handle_spec, if_neg hdec, if_neg hw]
    refine ⟨hstep, ?_⟩
    intro s1 h1
    have h2 := hstep.symm.trans h1
    injection h2 with h3
    rw [← h3]
    exact ⟨rfl, rfl, rfl⟩
  · intro hw
    have hstep : Bldc.step s inp
        = Except.ok (Bldc.step_mode { s with drv_8305 := (s.drv_8305.read DrvReadCommand.Warnings (fun _ => inp.warnings)).1, recovery_mode := none } inp.raw_angle) := by
      unfold Bldc.step
      rw [handle_spec, if_neg hdec, if_pos hw]
    refine ⟨hstep, ?_⟩
    intro s1 h1
    have h2 := hstep.symm.trans h1
    injection h2 with h3
    rw [← h3, step_mode_recovery]

/-- A concrete freshly constructed supervisor state: no recovery overlay,
20 pole pairs, `Mode::Start`, idle gate driver, fresh magnet controller,
zero-offset sensor. -/
def bldc0 : BldcState :=
  ⟨none, 20, Mode.Start, ⟨false, DrvCommand.Nop, 0⟩,
    MagnetController.start_state, ⟨20, 0⟩⟩

/-- Witness for C4 at the concrete input `warnings = 1` (Overtemp bit set)
on the fresh state `bldc0`. -/
theorem C4_recovery_overlay_witness :
    (1 : ℕ) ≠ 65535 ∧ (1 : ℕ) ≠ 0
    ∧ Bldc.step bldc0 ⟨1, 0⟩
        = Except.ok { bldc0 with drv_8305 := ((bldc0.drv_8305.read DrvReadCommand.Warnings (fun _ => 1)).1).disable_gate, recovery_mode := some () } :=
  ⟨by decide, by decide,
    ((C4_recovery_overlay bldc0 ⟨1, 0⟩ (by decide)).1 (by decide)).1⟩

theorem set_power_scale_zero (m : MagnetController) :
    (m.set_power_scale 0).power_scale = 0
    ∧ (m.set_power_scale 0).duty_u = 0
    ∧ (m.set_power_scale 0).duty_v = 0
    ∧ (m.set_power_scale 0).duty_w = 0 := by
  unfold MagnetController.set_power_scale MagnetController.set_phase_angle_and_power
  norm_num

/-- C8. Safe-mode effect: after `safemode()`, the most recent power command
is 0 (stored power scale 0 and all three commanded duties 0) and the gate
line is low; the mode state (recovery overlay and Start/Calibrate/Demo
variant with its contents) is unchanged. -/
theorem C8_safemode_effect (s : BldcState) :
    ((Bldc.safemode s).magnet_controller.power_scale = 0
      ∧ (Bldc.safemode s).magnet_controller.duty_u = 0
      ∧ (Bldc.safemode s).magnet_controller.duty_v = 0
      ∧ (Bldc.safemode s).magnet_controller.duty_w = 0)
    ∧ (Bldc.safemode s).drv_8305.en_gate = false
    ∧ (Bldc.safemode s).mode = s.mode
    ∧ (Bldc.safemode s).recovery_mode = s.recovery_mode := by
  refine ⟨?_, rfl, rfl, rfl⟩
  exact set_power_scale_zero s.magnet_controller

/-- Outcome of running the supervisor loop for a bounded number of
iterations. -/
inductive LoopResult
  | running (s : BldcState)
  | errored (e : String) (s : BldcState)
  | completed (s : BldcState)

/-- `runner::do_loop` (`src/runner.rs` lines 23-37) with explicit fuel and a
per-iteration input stream: while `should_continue()` reports true, step the
program; an error from either call applies `safemode` and propagates
(`errored`); when `should_continue()` reports false the loop falls through
to `shutdown()`, which returns all hardware (`completed`); `running` means
the fuel ran out with the loop still going. -/
noncomputable def do_loop (inputs : ℕ → StepInput) : ℕ → ℕ → BldcState → LoopResult
  | 0, _, s => LoopResult.running s
  | fuel + 1, k, s =>
      match Bldc.should_continue s with
      | Except.error e => LoopResult.errored e (Bldc.safemode s)
      | Except.ok false => LoopResult.completed s
      | Except.ok true =>
          match Bldc.step s (inputs k) with
          | Except.error e => LoopResult.errored e (Bldc.safemode s)
          | Except.ok s1 => do_loop inputs fuel (k + 1) s1

theorem do_loop_zero (inputs : ℕ → StepInput) (k : ℕ) (s : BldcState) :
    do_loop inputs 0 k s = LoopResult.running s := rfl

/-- One unrolling of the loop: `should_continue` is always `Ok(true)`, so
each iteration goes straight to `Bldc.step`. -/
theorem do_loop_succ (inputs : ℕ → StepInput) (fuel k : ℕ) (s : BldcState) :
    do_loop inputs (fuel + 1) k s
      = match Bldc.step s (inputs k) with
        | Except.error e => LoopResult.errored e (Bldc.safemode s)
        | Except.ok s1 => do_loop inputs fuel (k + 1) s1 := rfl

theorem do_loop_not_completed (inputs : ℕ → StepInput) (fuel : ℕ) :
    ∀ (k : ℕ) (s s' : BldcState),
      do_loop inputs fuel k s ≠ LoopResult.completed s' := by
  induction fuel with
  | zero =>
    intro k s s' h
    rw [do_loop_zero] at h
    exact LoopResult.noConfusion h
  | succ n ih =>
    intro k s s' h
    rw [do_loop_succ] at h
    cases hs : Bldc.step s (inputs k) with
    | error e =>
        rw [hs] at h
        exact LoopResult.noConfusion h
    | ok s1 =>
        rw [hs] at h
        exact ih (k + 1) s1 s' h

theorem do_loop_errored_safemode (inputs : ℕ → StepInput) (fuel : ℕ) :
    ∀ (k : ℕ) (s : BldcState) (e : String) (s' : BldcState),
      do_loop inputs fuel k s = LoopResult.errored e s' →
        ∃ s0, s' = Bldc.safemode s0 := by
  induction fuel with
  | zero =>
    intro k s e s' h
    rw [do_loop_zero] at h
    exact LoopResult.noConfusion h
  | succ n ih =>
    intro k s e s' h
    rw [do_loop_succ] at h
    cases hs : Bldc.step s (inputs k) with
    | error e2 =>
        rw [hs] at h
        injection h with h1 h2
        exact ⟨s, h2.symm⟩
    | ok s1 =>
        rw [hs] at h
        exact ih (k + 1) s1 e s' h

/-- C10. The supervisor's `should_continue()` always returns `Ok(true)`, so
no run of the loop ever reaches the `shutdown()` path that returns the
hardware: every bounded run is either still going, or has exited by
propagating an error after applying `safemode`. -/
theorem C10_no_shutdown (inputs : ℕ → StepInput) (fuel k : ℕ) (s : BldcState) :
    (∀ t : BldcState, Bldc.should_continue t = Except.ok true)
    ∧ (∀ s', do_loop inputs fuel k s ≠ LoopResult.completed s')
    ∧ (∀ e s', do_loop inputs fuel k s = LoopResult.errored e s' →
        ∃ s0, s' = Bldc.safemode s0) :=
  ⟨fun _ => rfl,
    fun s' => do_loop_not_completed inputs fuel k s s',
    fun e s' h => do_loop_errored_safemode inputs fuel k s e s' h⟩

/-- An input stream whose every warnings reply is the all-ones "driver
offline" word. -/
def inputsOffline : ℕ → StepInput := fun _ => ⟨65535, 0⟩

/-- Witness for C10 on a concrete erroring run: with an offline driver the
first iteration errors, the safemode-braked state is produced, and the
shutdown path is never reached. -/
theorem C10_no_shutdown_witness :
    do_loop inputsOffline 1 0 bldc0
        = LoopResult.errored "Drv8305 offline" (Bldc.safemode bldc0)
    ∧ (∀ s', do_loop inputsOffline 1 0 bldc0 ≠ LoopResult.completed s')
    ∧ (∃ s0, Bldc.safemode bldc0 = Bldc.safemode s0) := by
  have hstep : Bldc.step bldc0 (inputsOffline 0) = Except.error "Drv8305 offline" := by
    unfold Bldc.step
    rw [handle_spec, if_pos (show (inputsOffline 0).warnings = 65535 from rfl)]
  have hrun : do_loop inputsOffline 1 0 bldc0
      = LoopResult.errored "Drv8305 offline" (Bldc.safemode bldc0) := by
    rw [do_loop_succ, hstep]
  refine ⟨hrun, ?_, ?_⟩
  · exact (C10_no_shutdown inputsOffline 1 0 bldc0).2.1
  · exact (C10_no_shutdown inputsOffline 1 0 bldc0).2.2 "Drv8305 offline"
      (Bldc.safemode bldc0) hrun
